import Mathlib

/-!
Shallow embedding of the routing logic of `src/main.py` (a minimal HTTP
gateway that routes chat-completion and file-upload requests via
database-backed rules).

The database tables become Lean lists (rows in storage order), the Python
dict of canned responses becomes an association list, and the endpoint
bodies become pure Lean functions.  Python's `re.search(pat, s,
re.IGNORECASE)` is an external library call; it is modelled below by a
small regular-expression engine (`reSearch`) covering the core syntax
(literals, `.`, `|`, `*`, `+`, `?`, groups, character classes, the common
escapes) with Brzozowski-derivative matching; patterns outside that
subset, like malformed patterns, compile to an error, mirroring
`re.error`.  An uncaught Python exception is modelled as `Except.error ()`.
-/

namespace Unbound

/-! ### Character predicates of the regex model -/

/-- One member of a character class: a single character or a range. -/
inductive CItem where
  | single (c : Char)
  | range (lo hi : Char)
deriving DecidableEq

/-- A single-character predicate: `.`, a literal, or a bracket class. -/
inductive CPred where
  | any
  | lit (c : Char)
  | cls (neg : Bool) (items : List CItem)
deriving DecidableEq

/-- Membership of a character in a class item list (case-sensitive). -/
def inItems (c : Char) (items : List CItem) : Bool :=
  items.any fun it =>
    match it with
    | .single d => c = d
    | .range lo hi => lo ≤ c && c ≤ hi

/-- Case-insensitive single-character match, as compiled under
`re.IGNORECASE`: literals compare lower-cased, classes accept a character
if any case variant of it is a member, and `.` matches everything except
a newline. -/
def charMatch (p : CPred) (c : Char) : Bool :=
  match p with
  | .any => c != '\n'
  | .lit d => c.toLower = d.toLower
  | .cls neg items =>
      let m := inItems c items || inItems c.toLower items || inItems c.toUpper items
      if neg then !m else m

/-! ### Regex syntax and derivative-based matching -/

/-- Regular expressions over single-character predicates. -/
inductive Regex where
  | emptyset
  | eps
  | pred (p : CPred)
  | seq (r1 r2 : Regex)
  | alt (r1 r2 : Regex)
  | star (r : Regex)
deriving DecidableEq

/-- Does the regex accept the empty string? -/
def nullable : Regex → Bool
  | .emptyset => false
  | .eps => true
  | .pred _ => false
  | .seq a b => nullable a && nullable b
  | .alt a b => nullable a || nullable b
  | .star _ => true

/-- Brzozowski derivative of a regex by a character. -/
def derivc (r : Regex) (c : Char) : Regex :=
  match r with
  | .emptyset => .emptyset
  | .eps => .emptyset
  | .pred p => if charMatch p c then .eps else .emptyset
  | .seq a b =>
      if nullable a then .alt (.seq (derivc a c) b) (derivc b c)
      else .seq (derivc a c) b
  | .alt a b => .alt (derivc a c) (derivc b c)
  | .star a => .seq (derivc a c) (.star a)

/-- Whole-string match: the regex accepts exactly the whole character list. -/
def matchesAll (r : Regex) : List Char → Bool
  | [] => nullable r
  | c :: cs => matchesAll (derivc r c) cs

/-- Does the regex accept some prefix of the character list? -/
def matchesPref (r : Regex) : List Char → Bool
  | [] => nullable r
  | c :: cs => nullable r || matchesPref (derivc r c) cs

/-- Does the regex accept some contiguous substring of the character
list?  This is the unanchored `search` semantics of Python's `re.search`
(as opposed to `fullmatch`). -/
def searchList (r : Regex) : List Char → Bool
  | [] => nullable r
  | c :: cs => matchesPref r (c :: cs) || searchList r cs

/-! ### Pattern parsing

Patterns are stored as raw strings and compiled only at match time (as in
`re.search(rule.regex_pattern, ...)`); a pattern that fails to compile is
an `Except.error`, modelling `re.error`. -/

/-- Class items for the predefined escapes usable inside a bracket class:
`\d`, `\w`, `\s`, the literal escapes `\n`, `\t`, `\r`, `\f`, `\v`, and
escaped punctuation.  Escaping an unrecognised letter or a digit is an
error, as in Python ("bad escape"). -/
def escClassItems (d : Char) : Except Unit (List CItem) :=
  if d = 'd' then .ok [.range '0' '9']
  else if d = 'w' then .ok [.range 'a' 'z', .range 'A' 'Z', .range '0' '9', .single '_']
  else if d = 's' then .ok [.single ' ', .single '\t', .single '\n', .single '\r',
                            .single (Char.ofNat 11), .single (Char.ofNat 12)]
  else if d = 'n' then .ok [.single '\n']
  else if d = 't' then .ok [.single '\t']
  else if d = 'r' then .ok [.single '\r']
  else if d = 'f' then .ok [.single (Char.ofNat 12)]
  else if d = 'v' then .ok [.single (Char.ofNat 11)]
  else if d.isAlphanum then .error ()
  else .ok [.single d]

/-- Predicate for an escape in atom position: `\d`, `\w`, `\s` and their
complements, literal-character escapes, escaped punctuation. -/
def escPred (d : Char) : Except Unit CPred :=
  if d = 'D' then .ok (.cls true [.range '0' '9'])
  else if d = 'W' then .ok (.cls true [.range 'a' 'z', .range 'A' 'Z', .range '0' '9', .single '_'])
  else if d = 'S' then .ok (.cls true [.single ' ', .single '\t', .single '\n', .single '\r',
                                       .single (Char.ofNat 11), .single (Char.ofNat 12)])
  else (escClassItems d).map fun items => .cls false items

/-- Parse the items of a bracket class, up to the closing `]`.  Running
out of input is an "unterminated character set" error. -/
def parseClassItems : List Char → Except Unit (List CItem × List Char)
  | [] => .error ()
  | ']' :: rest => .ok ([], rest)
  | '\\' :: [] => .error ()
  | '\\' :: d :: rest => do
      let items ← escClassItems d
      let (is, r) ← parseClassItems rest
      .ok (items ++ is, r)
  | c :: '-' :: d :: rest =>
      if d = ']' then .ok ([.single c, .single '-'], rest)
      else do
        let (is, r) ← parseClassItems rest
        .ok (.range c d :: is, r)
  | c :: rest => do
      let (is, r) ← parseClassItems rest
      .ok (.single c :: is, r)

/-- After a quantifier: an optional lazy marker `?`, then a further
quantifier is a "multiple repeat" error. -/
def quantTail (r : Regex) : List Char → Except Unit (Regex × List Char)
  | '?' :: '*' :: _ => .error ()
  | '?' :: '+' :: _ => .error ()
  | '?' :: '?' :: _ => .error ()
  | '?' :: rest => .ok (r, rest)
  | '*' :: _ => .error ()
  | '+' :: _ => .error ()
  | rest => .ok (r, rest)

/-- Apply an optional quantifier (`*`, `+`, `?`) following an atom. -/
def applyQuant (r : Regex) : List Char → Except Unit (Regex × List Char)
  | '*' :: rest => quantTail (.star r) rest
  | '+' :: rest => quantTail (.seq r (.star r)) rest
  | '?' :: rest => quantTail (.alt r .eps) rest
  | rest => .ok (r, rest)

/-- Grammar level currently being parsed: alternation, sequence, or a
single (possibly quantified) atom. -/
inductive PLevel where
  | top
  | sq
  | atom

/-- Fuelled recursive-descent pattern compiler.  `top` parses an
alternation, `sq` a concatenation (stopping at `|`, `)` or the end), and
`atom` one atom — a literal, `.`, an escape, a bracket class, or a
parenthesised group (plain or `(?:`) — followed by its quantifier.
Malformed input (unbalanced parentheses, dangling quantifiers, bad
escapes, unterminated classes) is an error. -/
def parseR : Nat → PLevel → List Char → Except Unit (Regex × List Char)
  | 0, _, _ => .error ()
  | f + 1, .top, cs => do
      let (r, rest) ← parseR f .sq cs
      match rest with
      | '|' :: rest2 => do
          let (r2, rest3) ← parseR f .top rest2
          .ok (.alt r r2, rest3)
      | _ => .ok (r, rest)
  | f + 1, .sq, cs =>
      match cs with
      | [] => .ok (.eps, [])
      | ')' :: _ => .ok (.eps, cs)
      | '|' :: _ => .ok (.eps, cs)
      | _ => do
          let (a, rest) ← parseR f .atom cs
          let (b, rest2) ← parseR f .sq rest
          .ok (.seq a b, rest2)
  | f + 1, .atom, cs =>
      match cs with
      | [] => .error ()
      | '(' :: rest => do
          let (body, rest2) ←
            match rest with
            | '?' :: ':' :: rest1 => parseR f .top rest1
            | '?' :: _ => .error ()
            | _ => parseR f .top rest
          match rest2 with
          | ')' :: rest3 => applyQuant body rest3
          | _ => .error ()
      | '[' :: rest => do
          let (neg, rest1) :=
            match rest with
            | '^' :: r1 => (true, r1)
            | _ => (false, rest)
          let (lead, rest2) :=
            match rest1 with
            | ']' :: r2 => ([CItem.single ']'], r2)
            | _ => ([], rest1)
          let (items, rest3) ← parseClassItems rest2
          applyQuant (.pred (.cls neg (lead ++ items))) rest3
      | '\\' :: rest =>
          match rest with
          | [] => .error ()
          | d :: rest2 => do
              let p ← escPred d
              applyQuant (.pred p) rest2
      | '.' :: rest => applyQuant (.pred .any) rest
      | '*' :: _ => .error ()
      | '+' :: _ => .error ()
      | '?' :: _ => .error ()
      | ')' :: _ => .error ()
      | '|' :: _ => .error ()
      | c :: rest => applyQuant (.pred (.lit c)) rest

/-- Compile a whole pattern string; leftover input (an unbalanced `)`) is
an error.  The fuel is generous: each recursive call either consumes
input or descends at most three grammar levels before consuming. -/
def compilePattern (pat : String) : Except Unit Regex :=
  match parseR (4 * pat.length + 8) .top pat.data with
  | .error e => .error e
  | .ok (r, []) => .ok r
  | .ok (_, _ :: _) => .error ()

/-- Model of the external-library call
`re.search(pat, s, re.IGNORECASE)` at src/main.py line 74: compile the
pattern, then search for a match anywhere in `s`.  `Except.error ()`
models a raised `re.error`. -/
def reSearch (pat s : String) : Except Unit Bool :=
  (compilePattern pat).map fun r => searchList r s.data

/-! ### Data model (src/main.py lines 20-37)

Each table is a list of rows in storage (insertion) order.  The `Model`
table stores only names, so it is a `List String`. -/

/-- A prompt-rewrite rule, table `routing_rules` (src/main.py lines 25-30). -/
structure RoutingRule where
  original_model : String
  regex_pattern : String
  redirect_model : String
deriving DecidableEq

/-- An extension-routing rule, table `file_routing_rules` (src/main.py
lines 32-37).  The `file_type` column is declared `unique=True`. -/
structure FileRoutingRule where
  file_type : String
  redirect_provider : String
  redirect_model : String
deriving DecidableEq

/-- The three model names seeded by `initialize_models`
(src/main.py line 45). -/
def default_models : List String :=
  ["openai/gpt-3.5", "anthropic/claude-v1", "gemini/gemini-alpha"]

/-! ### Chat completion (src/main.py lines 67-83) -/

/-- Result of the chat endpoint: the structured error payload
`{"error": ...}` or a success payload `{"provider", "model", "response"}`. -/
inductive ChatResult where
  | err (msg : String)
  | success (provider model response : String)
deriving DecidableEq

/-- The fixed dict of canned responses (src/main.py lines 78-82), keyed
by model name. -/
def responses : List (String × String) :=
  [("openai/gpt-3.5", "OpenAI: Processed your prompt with advanced language understanding."),
   ("anthropic/claude-v1", "Anthropic: Your prompt has been interpreted with ethical AI principles."),
   ("gemini/gemini-alpha", "Gemini: Your request has been processed using next-gen AI.")]

/-- `responses.get(model, "Response not available.")` (src/main.py line 83). -/
def responsesGet (model : String) : String :=
  (List.lookup model responses).getD "Response not available."

/-- The rule-scan loop of src/main.py lines 73-76: try each stored rule
in order; on the first match replace `model` by the rule's
`redirect_model` and stop.  A `re.error` raised by a reached rule aborts
the scan (`Except.error`). -/
def applyRules (rules : List RoutingRule) (prompt model : String) : Except Unit String :=
  match rules with
  | [] => .ok model
  | rule :: rest =>
      match reSearch rule.regex_pattern prompt with
      | .error e => .error e
      | .ok true => .ok rule.redirect_model
      | .ok false => applyRules rest prompt model

/-- The `POST /v1/chat/completions` handler (src/main.py lines 67-83):
reject unknown models with the structured payload, otherwise scan the
rules and build the success payload from the (possibly redirected)
model.  `Except.error ()` is an uncaught exception (HTTP 500). -/
def chat_completions (models : List String) (rules : List RoutingRule)
    (provider model prompt : String) : Except Unit ChatResult :=
  if model ∉ models then .ok (.err "Model not supported")
  else
    (applyRules rules prompt model).map fun effective =>
      .success provider effective (responsesGet effective)

/-- The `POST /admin/add_regex` handler (src/main.py lines 112-117): a
plain insert of the new row, no validation of any field. -/
def add_regex_rule (db : List RoutingRule)
    (original_model regex_pattern redirect_model : String) : List RoutingRule :=
  db ++ [{ original_model := original_model, regex_pattern := regex_pattern,
           redirect_model := redirect_model }]

/-! ### File upload (src/main.py lines 93-110 and 123-137) -/

/-- Result of the upload endpoint: a routed payload (provider, model and
synthesized response) or the generic success payload with no
provider/model fields. -/
inductive UploadResult where
  | routed (filename provider model response : String)
  | plain (filename response : String)
deriving DecidableEq

/-- Python's `str.split(sep)` for a one-character separator: splits into
the (possibly empty) chunks between separator occurrences; the result is
never empty. -/
def pySplit (sep : Char) : List Char → List (List Char)
  | [] => [[]]
  | c :: cs =>
      match pySplit sep cs with
      | [] => [[]]
      | h :: t => if c = sep then [] :: h :: t else (c :: h) :: t

/-- `file.filename.split(".")[-1].lower()` (src/main.py line 97): the
chunk after the last `.` (the whole name when there is no `.`),
lower-cased. -/
def fileExt (filename : String) : String :=
  ⟨((pySplit '.' filename.data).getLastD []).map Char.toLower⟩

/-- The `POST /upload/` handler's resolution (src/main.py lines 97 and
102-110): look up the first stored rule whose `file_type` equals the
extension; if found, answer with its provider/model and the synthesized
string, otherwise with the generic success payload.  (Writing the bytes
to disk is infrastructure outside the model.) -/
def upload_file (db : List FileRoutingRule) (filename : String) : UploadResult :=
  match db.find? (fun r => r.file_type = fileExt filename) with
  | some rule =>
      .routed filename rule.redirect_provider rule.redirect_model
        (rule.redirect_provider ++ ": File processed with AI model " ++ rule.redirect_model ++ ".")
  | none => .plain filename "File uploaded successfully."

/-- The `POST /admin/add_file_routing` handler (src/main.py lines
123-137) together with the store's `unique=True` constraint on
`file_type` (line 35): committing a row whose `file_type` already exists
raises an integrity error (`Except.error ()`) and stores nothing;
otherwise the row is appended. -/
def add_file_routing_rule (db : List FileRoutingRule)
    (file_type redirect_provider redirect_model : String) :
    Except Unit (List FileRoutingRule) :=
  if db.any (fun r => r.file_type = file_type) then .error ()
  else .ok (db ++ [{ file_type := file_type, redirect_provider := redirect_provider,
                     redirect_model := redirect_model }])

/-! ### Verification -/

/-- Round-trip of `Char.ofNat` on a valid scalar value. -/
theorem char_toNat_ofNat (n : Nat) (h : n.isValidChar) : (Char.ofNat n).toNat = n := by
  rw [Char.ofNat, dif_pos h]
  rfl

/-- Lower-casing a character is idempotent. -/
theorem toLower_toLower (c : Char) : c.toLower.toLower = c.toLower := by
  unfold Char.toLower
  by_cases h : c.toNat ≥ 65 ∧ c.toNat ≤ 90
  · rw [if_pos h]
    have hv : (c.toNat + 32).isValidChar := Or.inl (by omega)
    have ht : (Char.ofNat (c.toNat + 32)).toNat = c.toNat + 32 := char_toNat_ofNat _ hv
    have hcond : ¬((Char.ofNat (c.toNat + 32)).toNat ≥ 65 ∧ (Char.ofNat (c.toNat + 32)).toNat ≤ 90) := by
      rw [ht]; omega
    rw [if_neg hcond]
  · rw [if_neg h, if_neg h]

/-- Upper-casing after lower-casing equals upper-casing directly. -/
theorem toUpper_toLower (c : Char) : c.toLower.toUpper = c.toUpper := by
  unfold Char.toLower Char.toUpper
  by_cases h : c.toNat ≥ 65 ∧ c.toNat ≤ 90
  · rw [if_pos h]
    have hv : (c.toNat + 32).isValidChar := Or.inl (by omega)
    have ht : (Char.ofNat (c.toNat + 32)).toNat = c.toNat + 32 := char_toNat_ofNat _ hv
    have hcond : (Char.ofNat (c.toNat + 32)).toNat ≥ 97 ∧ (Char.ofNat (c.toNat + 32)).toNat ≤ 122 := by
      rw [ht]; omega
    have hcond2 : ¬(c.toNat ≥ 97 ∧ c.toNat ≤ 122) := by omega
    have harith : c.toNat + 32 - 32 = c.toNat := by omega
    rw [if_pos hcond, if_neg hcond2, ht, harith, Char.ofNat_toNat]
  · rw [if_neg h]

/-- Every character is fixed by `toLower` or by `toUpper`. -/
theorem toLower_eq_self_or_toUpper_eq_self (c : Char) : c.toLower = c ∨ c.toUpper = c := by
  unfold Char.toLower Char.toUpper
  by_cases h : c.toNat ≥ 65 ∧ c.toNat ≤ 90
  · right
    rw [if_neg (by omega)]
  · left
    rw [if_neg h]

/-- Only the newline character lower-cases to a newline. -/
theorem toLower_eq_newline_iff (c : Char) : c.toLower = '\n' ↔ c = '\n' := by
  constructor
  · intro h
    by_cases hr : c.toNat ≥ 65 ∧ c.toNat ≤ 90
    · exfalso
      have hv : (c.toNat + 32).isValidChar := Or.inl (by omega)
      have ht : (Char.ofNat (c.toNat + 32)).toNat = c.toNat + 32 := char_toNat_ofNat _ hv
      have : c.toLower.toNat = c.toNat + 32 := by
        unfold Char.toLower
        rw [if_pos hr, ht]
      rw [h] at this
      rw [show ('\n').toNat = 10 from rfl] at this
      omega
    · unfold Char.toLower at h
      rwa [if_neg hr] at h
  · intro h
    rw [h]
    rfl

/-- Single-character matching is insensitive to lower-casing the input. -/
theorem charMatch_toLower (p : CPred) (c : Char) : charMatch p c.toLower = charMatch p c := by
  cases p with
  | any =>
      by_cases hc : c = '\n'
      · rw [hc]; rfl
      · have h2 : c.toLower ≠ '\n' := fun h => hc ((toLower_eq_newline_iff c).mp h)
        simp [charMatch, bne, hc, h2]
  | lit d => simp [charMatch, toLower_toLower]
  | cls neg items =>
      simp only [charMatch, toLower_toLower, toUpper_toLower]
      rcases toLower_eq_self_or_toUpper_eq_self c with h | h
      · rw [h]
      · rw [h]
        cases hx : inItems c items <;> cases hy : inItems c.toLower items <;>
          cases hz : inItems c.toUpper items <;> cases neg <;> simp_all

/-- Derivatives are insensitive to lower-casing the input character. -/
theorem derivc_toLower (r : Regex) (c : Char) : derivc r c.toLower = derivc r c := by
  induction r with
  | emptyset => rfl
  | eps => rfl
  | pred p => simp [derivc, charMatch_toLower]
  | seq a b iha ihb => simp [derivc, iha, ihb]
  | alt a b iha ihb => simp [derivc, iha, ihb]
  | star a iha => simp [derivc, iha]

/-- Prefix matching is insensitive to lower-casing the input. -/
theorem matchesPref_map_toLower (cs : List Char) : ∀ r : Regex,
    matchesPref r (cs.map Char.toLower) = matchesPref r cs := by
  induction cs with
  | nil => intro r; rfl
  | cons c cs ih =>
      intro r
      simp only [List.map_cons, matchesPref, derivc_toLower, ih]

/-- Searching is insensitive to lower-casing the input. -/
theorem searchList_map_toLower (cs : List Char) (r : Regex) :
    searchList r (cs.map Char.toLower) = searchList r cs := by
  induction cs with
  | nil => rfl
  | cons c cs ih =>
      simp only [List.map_cons, searchList, ih]
      rw [show (Char.toLower c :: List.map Char.toLower cs) = (c :: cs).map Char.toLower from rfl,
          matchesPref_map_toLower]

/-- The modelled `re.search` with `re.IGNORECASE` gives the same answer
on a prompt and on its lower-cased form: matching is case-insensitive. -/
theorem reSearch_map_toLower (pat s : String) :
    reSearch pat ⟨s.data.map Char.toLower⟩ = reSearch pat s := by
  unfold reSearch
  cases compilePattern pat with
  | error e => rfl
  | ok r => simp [Except.map, searchList_map_toLower]

/-- A regex matches some prefix of `cs` iff `cs` splits as `p ++ q` with
the regex accepting `p` exactly. -/
theorem matchesPref_iff_matchesAll (cs : List Char) : ∀ r : Regex,
    matchesPref r cs = true ↔ ∃ p q, cs = p ++ q ∧ matchesAll r p = true := by
  induction cs with
  | nil =>
      intro r
      constructor
      · intro h
        exact ⟨[], [], rfl, h⟩
      · rintro ⟨p, q, hpq, hm⟩
        cases p with
        | nil => exact hm
        | cons a b => simp at hpq
  | cons c cs ih =>
      intro r
      simp only [matchesPref, Bool.or_eq_true]
      constructor
      · rintro (hn | hm)
        · exact ⟨[], c :: cs, rfl, hn⟩
        · obtain ⟨p, q, hcs, hm2⟩ := (ih (derivc r c)).mp hm
          exact ⟨c :: p, q, by rw [hcs]; rfl, hm2⟩
      · rintro ⟨p, q, hpq, hm⟩
        cases p with
        | nil => exact Or.inl hm
        | cons c' p' =>
            right
            rw [List.cons_append] at hpq
            obtain ⟨hc, hcs⟩ := List.cons.inj hpq
            subst hc
            exact (ih (derivc r c)).mpr ⟨p', q, hcs, hm⟩

/-- A search succeeds iff the regex prefix-matches some suffix. -/
theorem searchList_iff_matchesPref (cs : List Char) (r : Regex) :
    searchList r cs = true ↔ ∃ u v, cs = u ++ v ∧ matchesPref r v = true := by
  induction cs with
  | nil =>
      constructor
      · intro h
        exact ⟨[], [], rfl, h⟩
      · rintro ⟨u, v, huv, hm⟩
        cases u with
        | nil =>
            cases v with
            | nil => exact hm
            | cons a b => simp at huv
        | cons a b => simp at huv
  | cons c cs ih =>
      simp only [searchList, Bool.or_eq_true]
      constructor
      · rintro (hm | hs)
        · exact ⟨[], c :: cs, rfl, hm⟩
        · obtain ⟨u, v, hcs, hm⟩ := ih.mp hs
          exact ⟨c :: u, v, by rw [hcs]; rfl, hm⟩
      · rintro ⟨u, v, huv, hm⟩
        cases u with
        | nil =>
            left
            have hv : v = c :: cs := by simpa using huv.symm
            rw [hv] at hm
            exact hm
        | cons c' u' =>
            right
            rw [List.cons_append] at huv
            obtain ⟨hc, hcs⟩ := List.cons.inj huv
            exact ih.mpr ⟨u', v, hcs, hm⟩

/-- Search semantics: `searchList` succeeds exactly when the regex
accepts some contiguous substring of the input — the unanchored
substring-search behaviour of `re.search`. -/
theorem searchList_iff_substring (r : Regex) (cs : List Char) :
    searchList r cs = true ↔ ∃ u w v, cs = u ++ w ++ v ∧ matchesAll r w = true := by
  rw [searchList_iff_matchesPref]
  constructor
  · rintro ⟨u, v, huv, hm⟩
    obtain ⟨p, q, hv, hm2⟩ := (matchesPref_iff_matchesAll v r).mp hm
    exact ⟨u, p, q, by rw [huv, hv, List.append_assoc], hm2⟩
  · rintro ⟨u, w, v, hc, hm⟩
    exact ⟨u, w ++ v, by rw [hc, List.append_assoc], (matchesPref_iff_matchesAll (w ++ v) r).mpr ⟨w, v, rfl, hm⟩⟩

/-- A scan in which no rule matches leaves the model unchanged. -/
theorem applyRules_no_match (rules : List RoutingRule) (prompt model : String)
    (h : ∀ r ∈ rules, reSearch r.regex_pattern prompt = .ok false) :
    applyRules rules prompt model = .ok model := by
  induction rules with
  | nil => rfl
  | cons rule rest ih =>
      rw [applyRules, h rule (List.mem_cons_self rule rest)]
      exact ih fun r hr => h r (List.mem_cons_of_mem rule hr)

/-- The scan stops at the first matching rule and returns its
`redirect_model`, whatever comes after it. -/
theorem applyRules_first_match (pre post : List RoutingRule) (rule : RoutingRule)
    (prompt model : String)
    (h1 : ∀ r ∈ pre, reSearch r.regex_pattern prompt = .ok false)
    (h2 : reSearch rule.regex_pattern prompt = .ok true) :
    applyRules (pre ++ rule :: post) prompt model = .ok rule.redirect_model := by
  induction pre with
  | nil =>
      rw [List.nil_append, applyRules, h2]
  | cons r0 rest ih =>
      rw [List.cons_append, applyRules, h1 r0 (List.mem_cons_self r0 rest)]
      exact ih fun r hr => h1 r (List.mem_cons_of_mem r0 hr)

/-- A reached rule whose pattern does not compile aborts the scan. -/
theorem applyRules_error (pre post : List RoutingRule) (rule : RoutingRule)
    (prompt model : String)
    (h1 : ∀ r ∈ pre, reSearch r.regex_pattern prompt = .ok false)
    (h2 : compilePattern rule.regex_pattern = .error ()) :
    applyRules (pre ++ rule :: post) prompt model = .error () := by
  induction pre with
  | nil =>
      rw [List.nil_append, applyRules]
      rw [show reSearch rule.regex_pattern prompt = .error () by rw [reSearch, h2]; rfl]
  | cons r0 rest ih =>
      rw [List.cons_append, applyRules, h1 r0 (List.mem_cons_self r0 rest)]
      exact ih fun r hr => h1 r (List.mem_cons_of_mem r0 hr)

/-- Rewriting every rule's `original_model` field does not change the
scan: the field is never consulted. -/
theorem applyRules_original_model_irrelevant (rules : List RoutingRule)
    (f : RoutingRule → String) (prompt model : String) :
    applyRules (rules.map fun r => { r with original_model := f r }) prompt model
      = applyRules rules prompt model := by
  induction rules with
  | nil => rfl
  | cons rule rest ih =>
      rw [List.map_cons, applyRules, applyRules]
      cases reSearch rule.regex_pattern prompt with
      | error e => rfl
      | ok b => cases b <;> simp [ih]

/-- Any successful chat payload carries the requested provider verbatim
and the response selected for its effective model. -/
theorem chat_success_inv (models : List String) (rules : List RoutingRule)
    (provider model prompt p em resp : String)
    (h : chat_completions models rules provider model prompt = .ok (.success p em resp)) :
    p = provider ∧ resp = responsesGet em := by
  unfold chat_completions at h
  by_cases hm : model ∉ models
  · rw [if_pos hm] at h
    simp at h
  · rw [if_neg hm] at h
    cases ha : applyRules rules prompt model with
    | error e => rw [ha] at h; simp [Except.map] at h
    | ok em' =>
        rw [ha] at h
        simp only [Except.map, Except.ok.injEq, ChatResult.success.injEq] at h
        obtain ⟨hp, hem, hresp⟩ := h
        exact ⟨hp.symm, by rw [← hresp, hem]⟩

/-- Finding in `pre ++ x :: post` returns `x` when nothing in `pre`
satisfies the predicate and `x` does. -/
theorem find?_first {α : Type} (p : α → Bool) (pre post : List α) (x : α)
    (h1 : ∀ a ∈ pre, p a = false) (h2 : p x = true) :
    List.find? p (pre ++ x :: post) = some x := by
  induction pre with
  | nil => rw [List.nil_append, List.find?_cons_of_pos _ h2]
  | cons a rest ih =>
      rw [List.cons_append, List.find?_cons_of_neg _ (by rw [h1 a (List.mem_cons_self a rest)]; simp)]
      exact ih fun a' ha' => h1 a' (List.mem_cons_of_mem a ha')

/-- A split never returns the empty list of chunks. -/
theorem pySplit_ne_nil (sep : Char) (cs : List Char) : pySplit sep cs ≠ [] := by
  cases cs with
  | nil => simp [pySplit]
  | cons c cs =>
      simp only [pySplit]
      cases pySplit sep cs with
      | nil => simp
      | cons h t => by_cases hc : c = sep <;> simp [hc]

/-- Unfolding of `pySplit` on a cons, with the recursive result exposed. -/
theorem pySplit_cons (sep c : Char) (cs : List Char) :
    ∃ h t, pySplit sep cs = h :: t ∧
      pySplit sep (c :: cs) = if c = sep then [] :: h :: t else (c :: h) :: t := by
  cases e : pySplit sep cs with
  | nil => exact absurd e (pySplit_ne_nil sep cs)
  | cons h t =>
      refine ⟨h, t, rfl, ?_⟩
      simp only [pySplit, e]

/-- Splitting a list that does not contain the separator yields the
whole list as the only chunk. -/
theorem pySplit_no_sep (sep : Char) (cs : List Char) (h : sep ∉ cs) : pySplit sep cs = [cs] := by
  induction cs with
  | nil => rfl
  | cons c cs ih =>
      have hc : c ≠ sep := fun e => h (e ▸ List.mem_cons_self c cs)
      have hcs : sep ∉ cs := fun e => h (List.mem_cons_of_mem c e)
      obtain ⟨h0, t0, he, hcons⟩ := pySplit_cons sep c cs
      rw [ih hcs] at he
      obtain ⟨rfl, rfl⟩ := List.cons.inj he
      rw [hcons, if_neg hc]

/-- The last chunk of a split is determined by the part after the last
separator, and a list containing a separator splits into at least two
chunks. -/
theorem getLastD_pySplit_sep (sep : Char) (xs ys : List Char) :
    (pySplit sep (xs ++ sep :: ys)).getLastD [] = (pySplit sep ys).getLastD []
      ∧ 2 ≤ (pySplit sep (xs ++ sep :: ys)).length := by
  induction xs with
  | nil =>
      obtain ⟨h, t, he, hcons⟩ := pySplit_cons sep sep ys
      rw [List.nil_append, hcons, if_pos rfl, he]
      exact ⟨by rw [List.getLastD_cons], by simp⟩
  | cons x xs ih =>
      obtain ⟨h, t, he, hcons⟩ := pySplit_cons sep x (xs ++ sep :: ys)
      rw [List.cons_append, hcons]
      obtain ⟨ih1, ih2⟩ := ih
      rw [he] at ih1 ih2
      by_cases hx : x = sep
      · rw [if_pos hx]
        exact ⟨by rw [List.getLastD_cons]; exact ih1, by simp⟩
      · rw [if_neg hx]
        cases t with
        | nil => simp at ih2
        | cons t0 ts =>
            constructor
            · rw [List.getLastD_cons] at ih1 ⊢
              rw [List.getLastD_cons] at ih1 ⊢
              exact ih1
            · simp

/-- A filename without a dot is used whole (lower-cased) as the
extension. -/
theorem fileExt_no_dot (name : String) (h : '.' ∉ name.data) :
    fileExt name = ⟨name.data.map Char.toLower⟩ := by
  unfold fileExt
  rw [pySplit_no_sep '.' name.data h]
  rfl

/-- The extension is the lower-cased part after the last dot. -/
theorem fileExt_after_last_dot (a b : String) (h : '.' ∉ b.data) :
    fileExt (a ++ "." ++ b) = ⟨b.data.map Char.toLower⟩ := by
  unfold fileExt
  have hdata : (a ++ "." ++ b).data = a.data ++ '.' :: b.data := by
    simp [String.data_append]
  rw [hdata, (getLastD_pySplit_sep '.' a.data b.data).1, pySplit_no_sep '.' b.data h]
  rfl

/-- A non-empty dot-free filename never yields the empty extension. -/
theorem fileExt_ne_empty (name : String) (h0 : name ≠ "") (h : '.' ∉ name.data) :
    fileExt name ≠ "" := by
  rw [fileExt_no_dot name h]
  intro hc
  apply h0
  have h1 : name.data.map Char.toLower = [] := congrArg String.data hc
  have h2 : name.data = [] := by
    cases hd : name.data with
    | nil => rfl
    | cons a b => rw [hd] at h1; simp at h1
  cases name
  simp_all

/-- Upload resolution returns the first stored rule whose `file_type`
equals the extension, with the synthesized response string. -/
theorem upload_first_rule (pre post : List FileRoutingRule) (rule : FileRoutingRule)
    (filename : String)
    (h1 : ∀ r ∈ pre, r.file_type ≠ fileExt filename)
    (h2 : rule.file_type = fileExt filename) :
    upload_file (pre ++ rule :: post) filename
      = .routed filename rule.redirect_provider rule.redirect_model
          (rule.redirect_provider ++ ": File processed with AI model " ++ rule.redirect_model ++ ".") := by
  unfold upload_file
  rw [find?_first (fun r => r.file_type = fileExt filename) pre post rule
        (fun a ha => by show decide (a.file_type = fileExt filename) = false
                        exact decide_eq_false (h1 a ha))
        (by show decide (rule.file_type = fileExt filename) = true
            exact decide_eq_true h2)]

/-- Claim C1: chat resolution scans the stored rules in insertion order
and tests each pattern with a case-insensitive unanchored search against
the prompt; the effective model is the `redirect_model` of the first
matching rule, later rules (even matching ones, `post` here) are
ignored, and `original_model` plays no role (the rules are arbitrary in
that field, and rewriting it changes nothing).  The last two conjuncts
characterize the matching primitive: it is insensitive to lower-casing
the prompt, and it succeeds exactly on regexes accepting some contiguous
substring of the input. -/
theorem chat_first_match_wins (models : List String) (pre post : List RoutingRule)
    (rule : RoutingRule) (provider model prompt : String)
    (h1 : model ∈ models)
    (h2 : ∀ r ∈ pre, reSearch r.regex_pattern prompt = .ok false)
    (h3 : reSearch rule.regex_pattern prompt = .ok true) :
    chat_completions models (pre ++ rule :: post) provider model prompt
      = .ok (.success provider rule.redirect_model (responsesGet rule.redirect_model))
    ∧ (∀ f : RoutingRule → String,
        chat_completions models ((pre ++ rule :: post).map fun r => { r with original_model := f r })
          provider model prompt
        = chat_completions models (pre ++ rule :: post) provider model prompt)
    ∧ (∀ pat s : String, reSearch pat ⟨s.data.map Char.toLower⟩ = reSearch pat s)
    ∧ (∀ (r : Regex) (cs : List Char),
        searchList r cs = true ↔ ∃ u w v, cs = u ++ w ++ v ∧ matchesAll r w = true) := by
  refine ⟨?_, ?_, reSearch_map_toLower, searchList_iff_substring⟩
  · unfold chat_completions
    rw [if_neg (not_not_intro h1), applyRules_first_match pre post rule prompt model h2 h3]
    rfl
  · intro f
    unfold chat_completions
    rw [if_neg (not_not_intro h1), if_neg (not_not_intro h1),
        applyRules_original_model_irrelevant (pre ++ rule :: post) f prompt model]

/-- Witness for C1: with a matching first rule and a second rule that
also matches, the first rule's redirect wins. -/
theorem chat_first_match_wins_case :
    chat_completions default_models
      [{ original_model := "any", regex_pattern := "urgent", redirect_model := "anthropic/claude-v1" },
       { original_model := "any", regex_pattern := "help", redirect_model := "gemini/gemini-alpha" }]
      "openai" "openai/gpt-3.5" "URGENT: help"
      = .ok (.success "openai" "anthropic/claude-v1"
          "Anthropic: Your prompt has been interpreted with ethical AI principles.") :=
  (chat_first_match_wins default_models []
    [{ original_model := "any", regex_pattern := "help", redirect_model := "gemini/gemini-alpha" }]
    { original_model := "any", regex_pattern := "urgent", redirect_model := "anthropic/claude-v1" }
    "openai" "openai/gpt-3.5" "URGENT: help"
    (by decide) (fun r hr => absurd hr (List.not_mem_nil r)) rfl).1

/-- Claim C2: a request for a model outside the stored Model names
returns the structured payload `error: Model not supported`, for every
rule store — even one whose patterns would fail to compile — so the rule
scan and the response lookup are never reached. -/
theorem unknown_model_rejected (models : List String) (rules : List RoutingRule)
    (provider model prompt : String) (h : model ∉ models) :
    chat_completions models rules provider model prompt = .ok (.err "Model not supported") := by
  unfold chat_completions
  rw [if_pos h]

/-- Witness for C2: an unknown model is rejected even though the stored
rule has an invalid pattern. -/
theorem unknown_model_rejected_case :
    chat_completions default_models
      [{ original_model := "x", regex_pattern := "(", redirect_model := "y" }]
      "openai" "unknown/model" "hi" = .ok (.err "Model not supported") :=
  unknown_model_rejected default_models
    [{ original_model := "x", regex_pattern := "(", redirect_model := "y" }]
    "openai" "unknown/model" "hi" (by decide)

/-- Claim C3: for a known model, when no stored rule matches the prompt
(including the empty store), the effective model of the success payload
is the requested model itself. -/
theorem no_match_keeps_requested_model (models : List String) (rules : List RoutingRule)
    (provider model prompt : String)
    (h1 : model ∈ models)
    (h2 : ∀ r ∈ rules, reSearch r.regex_pattern prompt = .ok false) :
    chat_completions models rules provider model prompt
      = .ok (.success provider model (responsesGet model)) := by
  unfold chat_completions
  rw [if_neg (not_not_intro h1), applyRules_no_match rules prompt model h2]
  rfl

/-- Witness for C3: the zero-rule store and a non-matching store both
keep the requested model. -/
theorem no_match_keeps_requested_model_case :
    chat_completions default_models [] "openai" "openai/gpt-3.5" "hello"
      = .ok (.success "openai" "openai/gpt-3.5"
          "OpenAI: Processed your prompt with advanced language understanding.")
    ∧ chat_completions default_models
        [{ original_model := "x", regex_pattern := "urgent", redirect_model := "anthropic/claude-v1" }]
        "gemini" "gemini/gemini-alpha" "hello"
      = .ok (.success "gemini" "gemini/gemini-alpha"
          "Gemini: Your request has been processed using next-gen AI.") :=
  ⟨no_match_keeps_requested_model default_models [] "openai" "openai/gpt-3.5" "hello"
     (by decide) (fun r hr => absurd hr (List.not_mem_nil r)),
   no_match_keeps_requested_model default_models
     [{ original_model := "x", regex_pattern := "urgent", redirect_model := "anthropic/claude-v1" }]
     "gemini" "gemini/gemini-alpha" "hello" (by decide)
     (fun r hr => by rw [List.mem_singleton] at hr; subst hr; rfl)⟩

/-- Claim C4: every successful chat response text is the lookup of the
effective model in the fixed three-entry `responses` mapping, with
fallback `Response not available.` for models absent from it; the
`openai/gpt-3.5` entry is the OpenAI canned string. -/
theorem response_from_effective_model (models : List String) (rules : List RoutingRule)
    (provider model prompt p em resp : String)
    (h : chat_completions models rules provider model prompt = .ok (.success p em resp)) :
    resp = responsesGet em
    ∧ responsesGet "openai/gpt-3.5"
        = "OpenAI: Processed your prompt with advanced language understanding."
    ∧ responses.length = 3
    ∧ (∀ m : String, List.lookup m responses = none →
        responsesGet m = "Response not available.") := by
  refine ⟨(chat_success_inv models rules provider model prompt p em resp h).2, rfl, rfl, ?_⟩
  intro m hm
  unfold responsesGet
  rw [hm]
  rfl

/-- Witness for C4: a redirect to a model outside the mapping yields the
fallback string. -/
theorem response_from_effective_model_case :
    "Response not available." = responsesGet "custom/model" :=
  (response_from_effective_model default_models
    [{ original_model := "x", regex_pattern := "urgent", redirect_model := "custom/model" }]
    "openai" "openai/gpt-3.5" "URGENT: help" "openai" "custom/model" "Response not available."
    rfl).1

/-- Claim C5: the provider field of every successful chat payload is the
requested provider string verbatim, whatever redirect happened. -/
theorem provider_passthrough (models : List String) (rules : List RoutingRule)
    (provider model prompt p em resp : String)
    (h : chat_completions models rules provider model prompt = .ok (.success p em resp)) :
    p = provider :=
  (chat_success_inv models rules provider model prompt p em resp h).1

/-- Witness for C5: a rule redirects to an Anthropic model, yet the
output provider stays `openai`. -/
theorem provider_passthrough_case :
    chat_completions default_models
      [{ original_model := "x", regex_pattern := "urgent", redirect_model := "anthropic/claude-v1" }]
      "openai" "openai/gpt-3.5" "URGENT: help"
      = .ok (.success "openai" "anthropic/claude-v1"
          "Anthropic: Your prompt has been interpreted with ethical AI principles.")
    ∧ "openai" = "openai" :=
  ⟨rfl,
   provider_passthrough default_models
     [{ original_model := "x", regex_pattern := "urgent", redirect_model := "anthropic/claude-v1" }]
     "openai" "openai/gpt-3.5" "URGENT: help" "openai" "anthropic/claude-v1"
     "Anthropic: Your prompt has been interpreted with ethical AI principles." rfl⟩

/-- Claim C7: `add_regex_rule` inserts any pattern string unvalidated,
and a stored rule whose pattern does not compile, once reached during
the scan, aborts the whole request with an exception
(`Except.error ()`), not a structured error payload. -/
theorem invalid_pattern_fails_request (models : List String) (pre post : List RoutingRule)
    (rule : RoutingRule) (provider model prompt : String)
    (h1 : model ∈ models)
    (h2 : ∀ r ∈ pre, reSearch r.regex_pattern prompt = .ok false)
    (h3 : compilePattern rule.regex_pattern = .error ()) :
    (∀ (db : List RoutingRule) (o pat rm : String),
      add_regex_rule db o pat rm
        = db ++ [{ original_model := o, regex_pattern := pat, redirect_model := rm }])
    ∧ chat_completions models (pre ++ rule :: post) provider model prompt = .error () := by
  refine ⟨fun db o pat rm => rfl, ?_⟩
  unfold chat_completions
  rw [if_neg (not_not_intro h1), applyRules_error pre post rule prompt model h2 h3]
  rfl

/-- Witness for C7: the unbalanced pattern `(` aborts the request. -/
theorem invalid_pattern_fails_request_case :
    chat_completions default_models
      [{ original_model := "x", regex_pattern := "(", redirect_model := "y" }]
      "openai" "openai/gpt-3.5" "hi" = .error () :=
  (invalid_pattern_fails_request default_models [] []
    { original_model := "x", regex_pattern := "(", redirect_model := "y" }
    "openai" "openai/gpt-3.5" "hi"
    (by decide) (fun r hr => absurd hr (List.not_mem_nil r)) rfl).2

/-- Counterexample to C6 as stated: inserting a second rule with the
same `file_type` does not produce coexisting duplicate rows — the
`unique=True` constraint on the column makes the insert fail with an
integrity error. -/
theorem file_type_unique_counterexample :
    add_file_routing_rule [] "pdf" "openai" "openai/gpt-3.5"
      = .ok [{ file_type := "pdf", redirect_provider := "openai", redirect_model := "openai/gpt-3.5" }]
    ∧ add_file_routing_rule
        [{ file_type := "pdf", redirect_provider := "openai", redirect_model := "openai/gpt-3.5" }]
        "pdf" "anthropic" "anthropic/claude-v1" = .error () :=
  ⟨rfl, rfl⟩

/-- Claim C6 (amended): `add_file_routing_rule` appends the new row when
no stored rule has the same `file_type`; a duplicate `file_type` insert
fails with an integrity error and stores nothing, so duplicate rows
cannot coexist; and file resolution uses the first row in storage order
whose `file_type` equals the extension. -/
theorem file_rule_insert_amended (db : List FileRoutingRule) (ft p m : String) :
    (db.any (fun r => r.file_type = ft) = false →
      add_file_routing_rule db ft p m
        = .ok (db ++ [{ file_type := ft, redirect_provider := p, redirect_model := m }]))
    ∧ (db.any (fun r => r.file_type = ft) = true →
      add_file_routing_rule db ft p m = .error ())
    ∧ (∀ (pre post : List FileRoutingRule) (rule : FileRoutingRule) (filename : String),
        (∀ r ∈ pre, r.file_type ≠ fileExt filename) → rule.file_type = fileExt filename →
        upload_file (pre ++ rule :: post) filename
          = .routed filename rule.redirect_provider rule.redirect_model
              (rule.redirect_provider ++ ": File processed with AI model "
                ++ rule.redirect_model ++ ".")) := by
  refine ⟨?_, ?_, fun pre post rule filename h1 h2 => upload_first_rule pre post rule filename h1 h2⟩
  · intro h
    unfold add_file_routing_rule
    rw [if_neg (by rw [h]; simp)]
  · intro h
    unfold add_file_routing_rule
    rw [if_pos h]

/-- Witness for the amended C6: a fresh insert succeeds, the duplicate
insert errors, and resolution uses the stored row. -/
theorem file_rule_insert_amended_case :
    add_file_routing_rule [] "pdf" "openai" "openai/gpt-3.5"
      = .ok [{ file_type := "pdf", redirect_provider := "openai", redirect_model := "openai/gpt-3.5" }]
    ∧ add_file_routing_rule
        [{ file_type := "pdf", redirect_provider := "openai", redirect_model := "openai/gpt-3.5" }]
        "pdf" "anthropic" "anthropic/claude-v1" = .error ()
    ∧ upload_file [{ file_type := "pdf", redirect_provider := "openai", redirect_model := "openai/gpt-3.5" }]
        "report.pdf"
      = .routed "report.pdf" "openai" "openai/gpt-3.5"
          "openai: File processed with AI model openai/gpt-3.5." :=
  ⟨(file_rule_insert_amended [] "pdf" "openai" "openai/gpt-3.5").1 rfl,
   (file_rule_insert_amended
     [{ file_type := "pdf", redirect_provider := "openai", redirect_model := "openai/gpt-3.5" }]
     "pdf" "anthropic" "anthropic/claude-v1").2.1 rfl,
   (file_rule_insert_amended [] "pdf" "openai" "openai/gpt-3.5").2.2 [] []
     { file_type := "pdf", redirect_provider := "openai", redirect_model := "openai/gpt-3.5" }
     "report.pdf" (fun r hr => absurd hr (List.not_mem_nil r)) rfl⟩

/-- Claim C8: when a stored rule's `file_type` equals the extension
(first such rule in storage order), upload resolution returns its
provider, its model, and exactly the synthesized string built from those
two fields; the comparison is case-sensitive against the lower-cased
input, so an upper-cased stored `file_type` never matches. -/
theorem file_rule_match_result (pre post : List FileRoutingRule) (rule : FileRoutingRule)
    (filename : String)
    (h1 : ∀ r ∈ pre, r.file_type ≠ fileExt filename)
    (h2 : rule.file_type = fileExt filename) :
    upload_file (pre ++ rule :: post) filename
      = .routed filename rule.redirect_provider rule.redirect_model
          (rule.redirect_provider ++ ": File processed with AI model "
            ++ rule.redirect_model ++ ".")
    ∧ (∀ p m : String,
        upload_file [{ file_type := "PDF", redirect_provider := p, redirect_model := m }] "doc.pdf"
          = .plain "doc.pdf" "File uploaded successfully.") :=
  ⟨upload_first_rule pre post rule filename h1 h2, fun _ _ => rfl⟩

/-- Witness for C8: scenario D, a stored `pdf` rule routes
`report.pdf`. -/
theorem file_rule_match_result_case :
    upload_file [{ file_type := "pdf", redirect_provider := "openai", redirect_model := "openai/gpt-3.5" }]
      "report.pdf"
      = .routed "report.pdf" "openai" "openai/gpt-3.5"
          "openai: File processed with AI model openai/gpt-3.5." :=
  (file_rule_match_result [] []
    { file_type := "pdf", redirect_provider := "openai", redirect_model := "openai/gpt-3.5" }
    "report.pdf" (fun r hr => absurd hr (List.not_mem_nil r)) rfl).1

/-- Claim C9: when no stored rule's `file_type` equals the extension,
upload resolution returns the generic success payload, which has no
provider and no model fields — the absence of a rule is not an error. -/
theorem file_no_rule_generic_success (db : List FileRoutingRule) (filename : String)
    (h : ∀ r ∈ db, r.file_type ≠ fileExt filename) :
    upload_file db filename = .plain filename "File uploaded successfully." := by
  unfold upload_file
  rw [List.find?_eq_none.mpr
    (fun a ha => by simp only [decide_eq_true_eq]; exact h a ha)]

/-- Witness for C9: a `docx` upload with only a `pdf` rule stored falls
back to the generic success payload. -/
theorem file_no_rule_generic_success_case :
    upload_file [{ file_type := "pdf", redirect_provider := "openai", redirect_model := "openai/gpt-3.5" }]
      "slides.docx" = .plain "slides.docx" "File uploaded successfully." :=
  file_no_rule_generic_success
    [{ file_type := "pdf", redirect_provider := "openai", redirect_model := "openai/gpt-3.5" }]
    "slides.docx" (fun r hr => by rw [List.mem_singleton] at hr; subst hr; decide)

/-- Claim C10: the lookup key is the lower-cased part of the filename
after its last dot; a dot-free filename is used whole (lower-cased) and,
when non-empty, never yields the empty extension. -/
theorem extension_extraction :
    (∀ name : String, '.' ∉ name.data → fileExt name = ⟨name.data.map Char.toLower⟩)
    ∧ (∀ a b : String, '.' ∉ b.data → fileExt (a ++ "." ++ b) = ⟨b.data.map Char.toLower⟩)
    ∧ (∀ name : String, name ≠ "" → '.' ∉ name.data → fileExt name ≠ "") :=
  ⟨fileExt_no_dot, fileExt_after_last_dot, fileExt_ne_empty⟩

/-- Witness for C10: a dot-free name is lower-cased whole, and only the
part after the last dot is kept. -/
theorem extension_extraction_case :
    fileExt "ARCHIVE" = "archive" ∧ fileExt "doc.tar.GZ" = "gz" :=
  ⟨extension_extraction.1 "ARCHIVE" (by decide),
   extension_extraction.2.1 "doc.tar" "GZ" (by decide)⟩

end Unbound
